import Mathlib

/-!
Verification of the news-curation pipeline in `app.py`.

The pipeline's pure logic is shallowly embedded: external effects
(RSS fetches, the generative-model calls, JSON parsing outcomes) become
explicit input values (`FeedResult`, `JsonResp`, `SumResp`), and each
Python function becomes a Lean function of those inputs.
-/

/-- A candidate article as built by `fetch_news` (dict with keys
`title`, `link`, `summary`, `published`, `source`). -/
structure Article where
  title : String
  link : String
  summary : String
  published : String
  source : String
deriving DecidableEq, Repr

instance : Inhabited Article := ⟨⟨"", "", "", "", ""⟩⟩

/-! ### String helpers (Python's `in` on strings) -/

/-- `charListLeads pat s`: `pat` is an initial segment of `s`. -/
def charListLeads : List Char → List Char → Bool
  | [], _ => true
  | _ :: _, [] => false
  | a :: as, b :: bs => a == b && charListLeads as bs

/-- `charListContains pat s`: `pat` occurs contiguously in `s`
(Python's `pat in s` on strings). -/
def charListContains (pat : List Char) : List Char → Bool
  | [] => charListLeads pat []
  | c :: rest => charListLeads pat (c :: rest) || charListContains pat rest

/-- Python's `pat in s` for strings. -/
def strContainsSub (s pat : String) : Bool :=
  charListContains pat.data s.data

/-- Python's `s.lower()` (character-wise lowering). -/
def strLower (s : String) : String :=
  ⟨s.data.map Char.toLower⟩

/-! ### Model discovery (`get_active_model_name`) -/

/-- A model descriptor as returned by the provider's list-models call. -/
structure ModelInfo where
  name : String
  supported_generation_methods : List String
deriving DecidableEq, Repr

/-- The generation-capable identifiers, as computed by the list
comprehension in `get_active_model_name`. -/
def availableModelNames (models : List ModelInfo) : List String :=
  (models.filter (fun m => m.supported_generation_methods.contains "generateContent")).map
    ModelInfo.name

/-- `get_active_model_name` from `app.py`: the provider query either
raises (`Except.error`) or yields a model list; priority is the first
name containing "flash" (lower-cased), then the first containing "pro",
then the first available, then the hardcoded `"models/gemini-pro"`. -/
def get_active_model_name (query : Except Unit (List ModelInfo)) : String :=
  match query with
  | .error _ => "models/gemini-pro"
  | .ok models =>
    let available := availableModelNames models
    match available.find? (fun m => strContainsSub (strLower m) "flash") with
    | some m => m
    | none =>
      match available.find? (fun m => strContainsSub (strLower m) "pro") with
      | some m => m
      | none =>
        match available with
        | m :: _ => m
        | [] => "models/gemini-pro"

/-- A name in the fast/cheap ("flash") tier. -/
def hasFlashTier (m : String) : Bool := strContainsSub (strLower m) "flash"

/-- A name in the general-purpose ("pro") tier. -/
def hasProTier (m : String) : Bool := strContainsSub (strLower m) "pro"

/-- An experimental/versioned variant, per the spec's wording. -/
def isExperimentalVariant (m : String) : Bool := strContainsSub (strLower m) "exp"

/-- Modelled from the spec: the claimed ranking for the model resolver,
which prefers a *stable* fast/cheap-tier identifier (excluding
experimental/versioned variants when a stable one exists) before falling
back to any fast/cheap identifier, then a general-purpose identifier,
then the first available, then the hardcoded string.  Written from the
spec's words, for comparison with `get_active_model_name`. -/
def claimedModelResolver (query : Except Unit (List ModelInfo)) : String :=
  match query with
  | .error _ => "models/gemini-pro"
  | .ok models =>
    let available := availableModelNames models
    match available.find? (fun m => hasFlashTier m && !isExperimentalVariant m) with
    | some m => m
    | none =>
      match available.find? hasFlashTier with
      | some m => m
      | none =>
        match available.find? hasProTier with
        | some m => m
        | none =>
          match available with
          | m :: _ => m
          | [] => "models/gemini-pro"

/-! ### RSS aggregation (`fetch_news`) -/

/-- One entry of a parsed syndication document. -/
structure Entry where
  title : String
  link : String
  summary : String
  published : String
  source : String
deriving DecidableEq, Repr

/-- A parsed feed: its entries and feedparser's `bozo` malformed flag. -/
structure Feed where
  entries : List Entry
  bozo : Bool
deriving DecidableEq, Repr

/-- The outcome of fetching one configured RSS URL: either a parsed feed
or an exception raised during the fetch/parse. -/
inductive FeedResult where
  | ok (f : Feed)
  | exn
deriving DecidableEq, Repr

/-- The article dict `fetch_news` appends for one feed entry. -/
def articleOfEntry (e : Entry) : Article :=
  { title := e.title, link := e.link, summary := e.summary
    published := e.published, source := e.source }

/-- The hardcoded mock-data fallback list of `fetch_news`. -/
def mock_articles : List Article :=
  [ { title := "財政部預告修法 2026年起加密貨幣獲利須申報所得稅"
      source := "測試資料來源", link := "https://google.com"
      summary := "財政部今日預告，將配合國際反避稅趨勢，納入個人加密資產交易所得，預計 2026 年正式上路。"
      published := "2026-01-13" }
  , { title := "退休金準備不足？三招教你補足缺口"
      source := "測試資料來源", link := "https://google.com"
      summary := "根據最新調查，國人退休金準備普遍不足。專家建議透過定期定額、長期複利效果，提早規劃退休生活。"
      published := "2026-01-13" }
  , { title := "全球經濟放緩 投資人應關注防禦型資產"
      source := "測試資料來源", link := "https://google.com"
      summary := "IMF 下修全球經濟成長率，分析師建議投資人調整資產配置，增加債券與公用事業等防禦型類股比重。"
      published := "2026-01-13" }
  , { title := "新青安房貸政策成效與風險"
      source := "測試資料來源", link := "https://google.com"
      summary := "政府推出新青安房貸政策，市場反應熱烈，但專家提醒需注意利率變動風險與自備款壓力。"
      published := "2026-01-13" }
  , { title := "保險新制上路，長照險怎麼買？"
      source := "測試資料來源", link := "https://google.com"
      summary := "金管會針對長照險發布新規定，專家解析條款差異，建議民眾依自身需求提早規劃。"
      published := "2026-01-13" }
  , { title := "高股息ETF夯，成分股篩選邏輯大公開"
      source := "測試資料來源", link := "https://google.com"
      summary := "近期高股息ETF備受投資人青睞，本文深入剖析各大ETF的選股邏輯與績效表現。"
      published := "2026-01-13" } ]

/-- The inner per-feed loop of `fetch_news`: take the top 20 entries,
skip links already in `seen`, append the rest. State is
`(seen_links, articles)`. -/
def processFeed (st : List String × List Article) (f : Feed) :
    List String × List Article :=
  (f.entries.take 20).foldl
    (fun st e =>
      if st.1.contains e.link then st
      else (e.link :: st.1, st.2 ++ [articleOfEntry e]))
    st

/-- The fetch loop of `fetch_news` over all configured feeds.  A feed
that is empty and flagged `bozo` is skipped (`continue`); an exception
anywhere aborts the whole `try` block (`none`). -/
def fetchLoop : List FeedResult → List String × List Article →
    Option (List String × List Article)
  | [], st => some st
  | .exn :: _, _ => none
  | .ok f :: rest, st =>
    if f.entries.isEmpty && f.bozo then fetchLoop rest st
    else fetchLoop rest (processFeed st f)

/-- `fetch_news` from `app.py`, as a function of the four feed-fetch
outcomes: on an exception, or when no feed yielded any article (the
code raises and catches `"No articles fetched from any source."`),
the mock list is returned; otherwise the collected articles. -/
def fetch_news (feeds : List FeedResult) : List Article :=
  match fetchLoop feeds ([], []) with
  | none => mock_articles
  | some (_, articles) =>
    if articles.isEmpty then mock_articles else articles

/-! ### AI selection (`filter_news_with_gemini`) -/

/-- A JSON value inside the parsed model response list: an integer, or
anything that is not an integer. -/
inductive JVal where
  | jint (i : Int)
  | jother
deriving DecidableEq, Repr

/-- The outcome of the selection call: the `generate_content` /
`json.loads` pair raised, or parsed to a non-list value, or parsed to a
list of JSON values. -/
inductive JsonResp where
  | fail
  | notList
  | list (xs : List JVal)
deriving DecidableEq, Repr

/-- The `valid_indices` list comprehension of `filter_news_with_gemini`:
keep integers `i` with `0 <= i < n` (iterating a non-list raises or
yields no integers, giving `[]`). -/
def extractValid (n : Nat) : JsonResp → List Nat
  | .list xs =>
    xs.filterMap (fun v =>
      match v with
      | .jint i => if 0 ≤ i ∧ i < (n : Int) then some i.toNat else none
      | .jother => none)
  | _ => []

/-- The Python fallback-padding loop: for `i in range(n)`, append `i`
when not in `existing_ids`, breaking as soon as the list reaches
`target` (the break test runs after every iteration, appending or not). -/
def padAux (target : Nat) : List Nat → List Nat → List Nat
  | [], acc => acc
  | i :: rest, acc =>
    if i ∈ acc then
      if target ≤ acc.length then acc else padAux target rest acc
    else
      if target ≤ (acc ++ [i]).length then acc ++ [i]
      else padAux target rest (acc ++ [i])

/-- `filter_news_with_gemini` from `app.py`, as a function of the pool
size and the model's (parsed) response: range-filter the returned
indices, pad from `range n` when fewer than 6 remain, truncate to 6. -/
def filter_news_with_gemini (n : Nat) (resp : JsonResp) : List Nat :=
  let valid := extractValid n resp
  let target := 6
  let padded := if valid.length < target then padAux target (List.range n) valid
                else valid
  padded.take target

/-- `selected_articles = [articles[i] for i in selected_indices]` in
`main` (total here via `getD`; the indices are proved in range). -/
def selectArticles (articles : List Article) (idxs : List Nat) : List Article :=
  idxs.map (fun i => articles.getD i default)

/-! ### Batch summarization (`batch_summarize_articles`) -/

/-- One object of the parsed summarization response, with every key
optional (the display code uses `item.get(...)` with defaults). -/
structure CommentaryJson where
  title : Option String
  summary : Option String
  advisor_view : Option (List String)
  action : Option String
deriving DecidableEq, Repr

/-- The outcome of the summarization call: raised / parsed to a
non-list value / parsed to a list of objects. -/
inductive SumResp where
  | fail
  | notList
  | list (records : List CommentaryJson)
deriving DecidableEq, Repr

/-- The f-string block `batch_summarize_articles` appends for one
(indexed) article. -/
def articleBlock (p : Nat × Article) : String :=
  ("\n        Article " ++ toString p.1 ++ ":\n        Title: ")
    ++ p.2.title
    ++ ("\n        Content: " ++ p.2.summary ++ "\n        ---\n        ")

/-- The `articles_text` accumulation loop of `batch_summarize_articles`:
one block per article, holding its index, title and summary. -/
def articlesText (articles : List Article) : String :=
  articles.enum.foldl (fun acc p => acc ++ articleBlock p) ""

/-- `batch_summarize_articles` from `app.py`, as a function of the one
response it receives: a parsed list is returned as-is; a non-list parse
(`st.error`, return `[]`) and any exception (`except`, return `[]`)
both yield the empty list — the function never raises. -/
def batch_summarize_articles (resp : SumResp) : List CommentaryJson :=
  match resp with
  | .list records => records
  | .notList => []
  | .fail => []

/-- `batch_summarize_articles` with its request count made explicit:
the service is a stream of responses and the function consumes exactly
one (the single `model.generate_content` call in the body). -/
def batch_summarize_articles_traced (svc : Nat → SumResp) :
    List CommentaryJson × Nat :=
  (batch_summarize_articles (svc 0), 1)

/-! ### Reconciliation and display (`main`) -/

/-- The per-article placeholder record `main` builds when
`summaries_data` is empty. -/
def placeholderRecord (a : Article) : CommentaryJson :=
  { title := some a.title, summary := some "AI 生成失敗"
    advisor_view := some [], action := some "請閱讀原文" }

/-- The `if not summaries_data` substitution in `main`. -/
def summariesOrPlaceholders (selected : List Article) (resp : SumResp) :
    List CommentaryJson :=
  let s := batch_summarize_articles resp
  if s.isEmpty then selected.map placeholderRecord else s

/-- One rendered card of the display grid. -/
structure DisplayPair where
  title : String
  summary : String
  views : List String
  action : String
  link : String
  source : String
deriving DecidableEq, Repr

/-- The display loop of `main`: iterate `enumerate(summaries_data)`,
defaulting missing keys, and pair positionally with
`selected_articles` (falling back to `"#"` / `"News"` past its end). -/
def displayPairs (selected : List Article) (summaries : List CommentaryJson) :
    List DisplayPair :=
  summaries.enum.map (fun p =>
    { title := p.2.title.getD "Unknown Title"
      summary := p.2.summary.getD "No summary."
      views := p.2.advisor_view.getD []
      action := p.2.action.getD "No advice."
      link := match selected.get? p.1 with
              | some a => a.link
              | none => "#"
      source := match selected.get? p.1 with
                | some a => a.source
                | none => "News" })

/-- The reconciliation/display step of `main` for a selection set:
placeholder substitution followed by the display loop. -/
def reconcile (selected : List Article) (resp : SumResp) : List DisplayPair :=
  displayPairs selected (summariesOrPlaceholders selected resp)

/-! ### One full pipeline invocation (`main`), with call counting -/

/-- The external world one invocation of `main` observes: the feed
outcomes and the two generation-call outcomes. -/
structure PipelineEnv where
  feeds : List FeedResult
  filterResp : JsonResp
  sumResp : SumResp
deriving DecidableEq, Repr

/-- The output of one button-press run of `main`, together with the
number of feed-fetch sequences it performed. -/
structure PipelineOutcome where
  pairs : List DisplayPair
  fetchCalls : Nat
deriving DecidableEq, Repr

/-- One invocation of the curation flow in `main`: fetch (always one
fetch sequence — there is no cache around it), select, summarize,
reconcile. -/
def run_curation (env : PipelineEnv) : PipelineOutcome :=
  let articles := fetch_news env.feeds
  if articles.isEmpty then { pairs := [], fetchCalls := 1 }
  else
    let selected_indices := filter_news_with_gemini articles.length env.filterResp
    if selected_indices.isEmpty then { pairs := [], fetchCalls := 1 }
    else
      let selected := selectArticles articles selected_indices
      { pairs := reconcile selected env.sumResp, fetchCalls := 1 }

/-- Total number of feed-fetch sequences performed by a series of
invocations (each button press re-enters `main` afresh). -/
def totalFetches (envs : List PipelineEnv) : Nat :=
  (envs.map (fun e => (run_curation e).fetchCalls)).sum

/-! ## Helper lemmas -/

theorem charListLeads_append {pat s : List Char} (ys : List Char)
    (h : charListLeads pat s = true) : charListLeads pat (s ++ ys) = true := by
  induction pat generalizing s with
  | nil => simp [charListLeads]
  | cons a as ih =>
    cases s with
    | nil => simp [charListLeads] at h
    | cons b bs =>
      simp only [charListLeads, Bool.and_eq_true] at h ⊢
      exact ⟨h.1, ih h.2⟩

theorem charListLeads_self (xs ys : List Char) :
    charListLeads xs (xs ++ ys) = true := by
  induction xs with
  | nil => simp [charListLeads]
  | cons a as ih => simp [charListLeads, ih]

theorem charListContains_nil_pat (s : List Char) :
    charListContains [] s = true := by
  cases s <;> simp [charListContains, charListLeads]

theorem charListContains_self_append (pat ys : List Char) :
    charListContains pat (pat ++ ys) = true := by
  cases pat with
  | nil => exact charListContains_nil_pat _
  | cons c cs =>
    simp only [List.cons_append, charListContains, Bool.or_eq_true]
    exact Or.inl (charListLeads_self (c :: cs) ys)

theorem charListContains_append_right {pat ys : List Char} (xs : List Char)
    (h : charListContains pat ys = true) :
    charListContains pat (xs ++ ys) = true := by
  induction xs with
  | nil => simpa
  | cons x rest ih =>
    simp only [List.cons_append, charListContains, Bool.or_eq_true]
    exact Or.inr ih

theorem charListContains_append_left {pat xs : List Char} (ys : List Char)
    (h : charListContains pat xs = true) :
    charListContains pat (xs ++ ys) = true := by
  induction xs with
  | nil =>
    cases pat with
    | nil => exact charListContains_nil_pat _
    | cons c cs => simp [charListContains, charListLeads] at h
  | cons x rest ih =>
    simp only [charListContains, Bool.or_eq_true] at h
    rcases h with h | h
    · simp only [List.cons_append, charListContains, Bool.or_eq_true]
      exact Or.inl (charListLeads_append ys h)
    · simp only [List.cons_append, charListContains, Bool.or_eq_true]
      exact Or.inr (ih h)

theorem padAux_mem_src {t : Nat} {xs acc : List Nat} {x : Nat}
    (h : x ∈ padAux t xs acc) : x ∈ acc ∨ x ∈ xs := by
  induction xs generalizing acc with
  | nil => simp only [padAux] at h; exact Or.inl h
  | cons i rest ih =>
    simp only [padAux] at h
    by_cases hc : i ∈ acc
    · simp only [hc, if_true] at h
      split at h
      · exact Or.inl h
      · rcases ih h with h' | h'
        · exact Or.inl h'
        · exact Or.inr (List.mem_cons_of_mem _ h')
    · simp only [hc, if_false] at h
      split at h
      · rcases List.mem_append.mp h with h' | h'
        · exact Or.inl h'
        · exact Or.inr (List.mem_cons.mpr (Or.inl (List.mem_singleton.mp h')))
      · rcases ih h with h' | h'
        · rcases List.mem_append.mp h' with h'' | h''
          · exact Or.inl h''
          · exact Or.inr (List.mem_cons.mpr (Or.inl (List.mem_singleton.mp h'')))
        · exact Or.inr (List.mem_cons_of_mem _ h')

theorem padAux_mono {t : Nat} {xs acc : List Nat} {x : Nat}
    (h : x ∈ acc) : x ∈ padAux t xs acc := by
  induction xs generalizing acc with
  | nil => simpa [padAux]
  | cons i rest ih =>
    simp only [padAux]
    by_cases hc : i ∈ acc
    · simp only [hc, if_true]
      split
      · exact h
      · exact ih h
    · simp only [hc, if_false]
      split
      · exact List.mem_append.mpr (Or.inl h)
      · exact ih (List.mem_append.mpr (Or.inl h))

theorem padAux_nodup {t : Nat} {xs acc : List Nat}
    (h : acc.Nodup) : (padAux t xs acc).Nodup := by
  induction xs generalizing acc with
  | nil => simpa [padAux]
  | cons i rest ih =>
    simp only [padAux]
    by_cases hc : i ∈ acc
    · simp only [hc, if_true]
      split
      · exact h
      · exact ih h
    · simp only [hc, if_false]
      have h2 : (acc ++ [i]).Nodup := by simp [List.nodup_append, h, hc]
      split
      · exact h2
      · exact ih h2

theorem padAux_cover (t : Nat) (xs acc : List Nat) :
    t ≤ (padAux t xs acc).length ∨ ∀ x ∈ xs, x ∈ padAux t xs acc := by
  induction xs generalizing acc with
  | nil => exact Or.inr (by simp)
  | cons i rest ih =>
    simp only [padAux]
    by_cases hc : i ∈ acc
    · simp only [hc, if_true]
      split
      · next hlen => exact Or.inl hlen
      · rcases ih acc with h | h
        · exact Or.inl h
        · refine Or.inr (fun x hx => ?_)
          rcases List.mem_cons.mp hx with rfl | hx'
          · exact padAux_mono hc
          · exact h x hx'
    · simp only [hc, if_false]
      split
      · next hlen =>
        exact Or.inl hlen
      · rcases ih (acc ++ [i]) with h | h
        · exact Or.inl h
        · refine Or.inr (fun x hx => ?_)
          rcases List.mem_cons.mp hx with rfl | hx'
          · exact padAux_mono (List.mem_append.mpr (Or.inr (List.mem_singleton.mpr rfl)))
          · exact h x hx'

theorem extractValid_lt {n : Nat} {resp : JsonResp} {x : Nat}
    (h : x ∈ extractValid n resp) : x < n := by
  cases resp with
  | fail => simp [extractValid] at h
  | notList => simp [extractValid] at h
  | list xs =>
    simp only [extractValid, List.mem_filterMap] at h
    obtain ⟨v, _, hv⟩ := h
    cases v with
    | jint i =>
      simp only at hv
      split at hv
      · next hrange =>
        obtain ⟨h0, hlt⟩ := hrange
        have : i.toNat = x := by simpa using hv
        omega
      · simp at hv
    | jother => simp at hv

theorem extractValid_subset_range (n : Nat) (resp : JsonResp) :
    extractValid n resp ⊆ List.range n := by
  intro x hx
  exact List.mem_range.mpr (extractValid_lt hx)

theorem filter_news_mem_lt {n : Nat} {resp : JsonResp} {i : Nat}
    (h : i ∈ filter_news_with_gemini n resp) : i < n := by
  simp only [filter_news_with_gemini] at h
  have h' := List.mem_of_mem_take h
  split at h'
  · rcases padAux_mem_src h' with hm | hm
    · exact extractValid_lt hm
    · exact List.mem_range.mp hm
  · exact extractValid_lt h'

theorem filter_news_length_big {n : Nat} (resp : JsonResp) (h6 : 6 ≤ n) :
    (filter_news_with_gemini n resp).length = 6 := by
  simp only [filter_news_with_gemini]
  split
  · next hlt =>
    rcases padAux_cover 6 (List.range n) (extractValid n resp) with hc | hc
    · rw [List.length_take]
      exact Nat.min_eq_left hc
    · have hsub : List.range n ⊆ padAux 6 (List.range n) (extractValid n resp) :=
        fun x hx => hc x hx
      have hlen : n ≤ (padAux 6 (List.range n) (extractValid n resp)).length := by
        have := (List.subperm_of_subset (List.nodup_range n) hsub).length_le
        simpa using this
      rw [List.length_take]
      exact Nat.min_eq_left (le_trans h6 hlen)
  · next hge =>
    rw [List.length_take]
    exact Nat.min_eq_left (Nat.le_of_not_lt hge)

theorem filter_news_nodup {n : Nat} {resp : JsonResp}
    (hnd : (extractValid n resp).Nodup) :
    (filter_news_with_gemini n resp).Nodup := by
  simp only [filter_news_with_gemini]
  refine List.Nodup.sublist (List.take_sublist _ _) ?_
  split
  · exact padAux_nodup hnd
  · exact hnd

theorem filter_news_length_small {n : Nat} {resp : JsonResp} (hn : n < 6)
    (hnd : (extractValid n resp).Nodup) :
    (filter_news_with_gemini n resp).length = n := by
  have hvalid_le : (extractValid n resp).length ≤ n := by
    have := (List.subperm_of_subset hnd (extractValid_subset_range n resp)).length_le
    simpa using this
  simp only [filter_news_with_gemini]
  have hvlt : (extractValid n resp).length < 6 := lt_of_le_of_lt hvalid_le hn
  simp only [hvlt, if_true]
  have hpad_nodup : (padAux 6 (List.range n) (extractValid n resp)).Nodup :=
    padAux_nodup hnd
  have hpad_sub : padAux 6 (List.range n) (extractValid n resp) ⊆ List.range n := by
    intro x hx
    rcases padAux_mem_src hx with hm | hm
    · exact extractValid_subset_range n resp hm
    · exact hm
  have hpad_le : (padAux 6 (List.range n) (extractValid n resp)).length ≤ n := by
    have := (List.subperm_of_subset hpad_nodup hpad_sub).length_le
    simpa using this
  rcases padAux_cover 6 (List.range n) (extractValid n resp) with hc | hc
  · omega
  · have hsub : List.range n ⊆ padAux 6 (List.range n) (extractValid n resp) :=
      fun x hx => hc x hx
    have hge : n ≤ (padAux 6 (List.range n) (extractValid n resp)).length := by
      have := (List.subperm_of_subset (List.nodup_range n) hsub).length_le
      simpa using this
    have heq : (padAux 6 (List.range n) (extractValid n resp)).length = n :=
      le_antisymm hpad_le hge
    rw [List.length_take, heq]
    exact Nat.min_eq_right (Nat.le_of_lt hn)

theorem selectArticles_map_nodup (f : Article → String) (l : List Article)
    (idxs : List Nat) (hnd : idxs.Nodup)
    (hlt : ∀ i ∈ idxs, i < l.length) (hf : (l.map f).Nodup) :
    ((selectArticles l idxs).map f).Nodup := by
  simp only [selectArticles, List.map_map]
  refine List.Nodup.map_on ?_ hnd
  intro i hi j hj hij
  have hi' : i < l.length := hlt i hi
  have hj' : j < l.length := hlt j hj
  have hgi : l.getD i default = l[i] := List.getD_eq_getElem l default hi'
  have hgj : l.getD j default = l[j] := List.getD_eq_getElem l default hj'
  simp only [Function.comp_apply, hgi, hgj] at hij
  have hmi : i < (l.map f).length := by simpa using hi'
  have hmj : j < (l.map f).length := by simpa using hj'
  have hme : (l.map f)[i] = (l.map f)[j] := by
    rw [List.getElem_map, List.getElem_map]
    exact hij
  exact (List.Nodup.getElem_inj_iff hf).mp hme

theorem displayPairs_length (selected : List Article)
    (summaries : List CommentaryJson) :
    (displayPairs selected summaries).length = summaries.length := by
  simp [displayPairs]

theorem summariesOrPlaceholders_fail (selected : List Article) :
    summariesOrPlaceholders selected SumResp.fail =
      selected.map placeholderRecord := by
  simp [summariesOrPlaceholders, batch_summarize_articles]

theorem summariesOrPlaceholders_notList (selected : List Article) :
    summariesOrPlaceholders selected SumResp.notList =
      selected.map placeholderRecord := by
  simp [summariesOrPlaceholders, batch_summarize_articles]

theorem reconcile_placeholder_getElem? (selected : List Article) (i : Nat) :
    (reconcile selected SumResp.fail)[i]? =
      (selected[i]?).map (fun a =>
        { title := a.title, summary := "AI 生成失敗", views := []
          action := "請閱讀原文", link := a.link, source := a.source }) := by
  simp only [reconcile, summariesOrPlaceholders_fail, displayPairs,
    List.getElem?_map, List.getElem?_enum]
  cases h : selected[i]? with
  | none => simp
  | some a =>
    simp [h, placeholderRecord]

theorem articlesTextFold_mono (l : List (Nat × Article)) (acc : String)
    (pat : List Char) (h : charListContains pat acc.data = true) :
    charListContains pat
      ((l.foldl (fun acc p => acc ++ articleBlock p) acc).data) = true := by
  induction l generalizing acc with
  | nil => simpa
  | cons p rest ih =>
    simp only [List.foldl_cons]
    exact ih (acc ++ articleBlock p) (charListContains_append_left _ h)

theorem articlesTextFold_title (l : List (Nat × Article)) (acc : String) :
    ∀ p ∈ l, charListContains p.2.title.data
      ((l.foldl (fun acc p => acc ++ articleBlock p) acc).data) = true := by
  induction l generalizing acc with
  | nil => intro p hp; simp at hp
  | cons q rest ih =>
    intro p hp
    rcases List.mem_cons.mp hp with rfl | hp'
    · simp only [List.foldl_cons]
      refine articlesTextFold_mono rest (acc ++ articleBlock p) _ ?_
      show charListContains p.2.title.data (acc.data ++ (articleBlock p).data) = true
      refine charListContains_append_right acc.data ?_
      simp only [articleBlock]
      show charListContains p.2.title.data
        ((("\n        Article " ++ toString p.1 ++ ":\n        Title: ").data
          ++ p.2.title.data)
          ++ ("\n        Content: " ++ p.2.summary ++ "\n        ---\n        ").data)
        = true
      rw [List.append_assoc]
      refine charListContains_append_right _ ?_
      exact charListContains_self_append _ _
    · simp only [List.foldl_cons]
      exact ih (acc ++ articleBlock q) p hp'

theorem articlesText_contains_title (l : List Article) :
    ∀ a ∈ l, strContainsSub (articlesText l) a.title = true := by
  intro a ha
  have hmem : ∃ p ∈ l.enum, p.2 = a := by
    have := List.enum_map_snd l
    rw [← this] at ha
    obtain ⟨p, hp, hpa⟩ := List.mem_map.mp ha
    exact ⟨p, hp, hpa⟩
  obtain ⟨p, hp, hpa⟩ := hmem
  have := articlesTextFold_title l.enum "" p hp
  rw [hpa] at this
  exact this

theorem fetchLoop_skip (pre post : List FeedResult)
    (st : List String × List Article) :
    fetchLoop (pre ++ FeedResult.ok ⟨[], true⟩ :: post) st =
      fetchLoop (pre ++ post) st := by
  induction pre generalizing st with
  | nil => simp [fetchLoop, List.isEmpty]
  | cons r rest ih =>
    cases r with
    | exn => simp [fetchLoop]
    | ok f =>
      simp only [List.cons_append, fetchLoop]
      split
      · exact ih st
      · exact ih (processFeed st f)

theorem fetchLoop_exn (pre post : List FeedResult)
    (st : List String × List Article) :
    fetchLoop (pre ++ FeedResult.exn :: post) st = none := by
  induction pre generalizing st with
  | nil => simp [fetchLoop]
  | cons r rest ih =>
    cases r with
    | exn => simp [fetchLoop]
    | ok f =>
      simp only [List.cons_append, fetchLoop]
      split
      · exact ih st
      · exact ih (processFeed st f)

theorem mock_articles_ne_nil : mock_articles ≠ [] := by
  simp [mock_articles]

theorem fetch_news_ne_nil (feeds : List FeedResult) :
    fetch_news feeds ≠ [] := by
  simp only [fetch_news]
  split
  · exact mock_articles_ne_nil
  · next st _ heq =>
    split
    · exact mock_articles_ne_nil
    · next hne => exact fun hnil => by simp [hnil] at hne

theorem run_curation_fetchCalls (env : PipelineEnv) :
    (run_curation env).fetchCalls = 1 := by
  simp only [run_curation]
  split
  · rfl
  · split <;> rfl

/-! ## Claim theorems -/

/-- C1 (amended): for every pool with at least K = 6 articles,
`filter_news_with_gemini` returns exactly 6 indices for *every* model
response; and whenever the in-range integer indices extracted from the
response contain no duplicates, the 6 selected articles of a
deduplicated pool (pairwise-distinct links and titles) are themselves
pairwise distinct in link and title.  (Unconditional distinctness fails:
duplicate indices from the model are kept — see the counterexample.) -/
theorem C1_diversity_selector (pool : List Article) (resp : JsonResp)
    (h6 : 6 ≤ pool.length)
    (hlinks : (pool.map Article.link).Nodup)
    (htitles : (pool.map Article.title).Nodup) :
    (filter_news_with_gemini pool.length resp).length = 6 ∧
    ((extractValid pool.length resp).Nodup →
      ((selectArticles pool
          (filter_news_with_gemini pool.length resp)).map Article.link).Nodup ∧
      ((selectArticles pool
          (filter_news_with_gemini pool.length resp)).map Article.title).Nodup) := by
  refine ⟨filter_news_length_big resp h6, fun hnd => ?_⟩
  have hidx_nodup := filter_news_nodup hnd
  have hidx_lt : ∀ i ∈ filter_news_with_gemini pool.length resp, i < pool.length :=
    fun i hi => filter_news_mem_lt hi
  exact ⟨selectArticles_map_nodup _ _ _ hidx_nodup hidx_lt hlinks,
         selectArticles_map_nodup _ _ _ hidx_nodup hidx_lt htitles⟩

/-- Witness for C1 at a concrete 6-article deduplicated pool and a
failing model call. -/
theorem C1_diversity_selector_witness :
    (filter_news_with_gemini
      ([⟨"t1","l1","","",""⟩, ⟨"t2","l2","","",""⟩, ⟨"t3","l3","","",""⟩,
        ⟨"t4","l4","","",""⟩, ⟨"t5","l5","","",""⟩,
        ⟨"t6","l6","","",""⟩] : List Article).length JsonResp.fail).length = 6 ∧
    ((selectArticles
        [⟨"t1","l1","","",""⟩, ⟨"t2","l2","","",""⟩, ⟨"t3","l3","","",""⟩,
         ⟨"t4","l4","","",""⟩, ⟨"t5","l5","","",""⟩, ⟨"t6","l6","","",""⟩]
        (filter_news_with_gemini
          ([⟨"t1","l1","","",""⟩, ⟨"t2","l2","","",""⟩, ⟨"t3","l3","","",""⟩,
            ⟨"t4","l4","","",""⟩, ⟨"t5","l5","","",""⟩,
            ⟨"t6","l6","","",""⟩] : List Article).length
          JsonResp.fail)).map Article.link).Nodup :=
  have h := C1_diversity_selector
    [⟨"t1","l1","","",""⟩, ⟨"t2","l2","","",""⟩, ⟨"t3","l3","","",""⟩,
     ⟨"t4","l4","","",""⟩, ⟨"t5","l5","","",""⟩, ⟨"t6","l6","","",""⟩]
    JsonResp.fail (by decide) (by decide) (by decide)
  ⟨h.1, (h.2 (by decide)).1⟩

/-- Counterexample to C1 as stated: on a deduplicated 6-article pool
(distinct links, distinct titles), a model response of six duplicate
indices `[0,0,0,0,0,0]` passes the range filter untouched, so all six
returned picks are the same article and the returned links are not
pairwise distinct. -/
theorem C1_counterexample :
    ((selectArticles
        [⟨"t1","l1","","",""⟩, ⟨"t2","l2","","",""⟩, ⟨"t3","l3","","",""⟩,
         ⟨"t4","l4","","",""⟩, ⟨"t5","l5","","",""⟩, ⟨"t6","l6","","",""⟩]
        (filter_news_with_gemini 6
          (JsonResp.list [.jint 0, .jint 0, .jint 0, .jint 0, .jint 0,
            .jint 0]))).map Article.link) =
      ["l1", "l1", "l1", "l1", "l1", "l1"] ∧
    ¬ (["l1", "l1", "l1", "l1", "l1", "l1"] : List String).Nodup := by
  exact ⟨by decide, by decide⟩

/-- C8 (amended): for every pool with fewer than K = 6 articles,
`filter_news_with_gemini` never errors (it is total) and — whenever the
in-range indices extracted from the model response contain no
duplicates — returns exactly pool-size pairwise-distinct indices.
(The unconditional bound fails: duplicate indices can inflate the
result past the pool size — see the counterexample.) -/
theorem C8_small_pool (n : Nat) (resp : JsonResp) (hn : n < 6)
    (hnd : (extractValid n resp).Nodup) :
    (filter_news_with_gemini n resp).length = n ∧
    (filter_news_with_gemini n resp).Nodup := by
  exact ⟨filter_news_length_small hn hnd, filter_news_nodup hnd⟩

/-- Witness for C8 at pool size 3 and a failing model call. -/
theorem C8_small_pool_witness :
    (filter_news_with_gemini 3 JsonResp.fail).length = 3 ∧
    (filter_news_with_gemini 3 JsonResp.fail).Nodup :=
  C8_small_pool 3 JsonResp.fail (by decide) (by decide)

/-- Counterexample to C8 as stated: with a pool of 3 articles, a model
response repeating each valid index twice yields 6 returned indices —
twice the pool size — because the range filter keeps duplicates and the
6-quota check `len(valid_indices) < 6` never triggers the padding. -/
theorem C8_counterexample :
    filter_news_with_gemini 3
      (JsonResp.list [.jint 0, .jint 0, .jint 1, .jint 1, .jint 2, .jint 2]) =
      [0, 0, 1, 1, 2, 2] ∧
    (filter_news_with_gemini 3
      (JsonResp.list [.jint 0, .jint 0, .jint 1, .jint 1, .jint 2,
        .jint 2])).length = 6 ∧
    ¬ (6 ≤ 3) := by
  exact ⟨by decide, by decide, by decide⟩

/-- C9 (confirmed): every index returned by `filter_news_with_gemini`
is in range for the article pool, for every model response, so the
indexing `articles[i]` in `main` never fails. -/
theorem C9_indices_safe (pool : List Article) (resp : JsonResp) :
    ∀ i ∈ filter_news_with_gemini pool.length resp,
      i < pool.length ∧ (pool.get? i).isSome = true := by
  intro i hi
  have h : i < pool.length := filter_news_mem_lt hi
  exact ⟨h, by simp [List.get?_eq_getElem?, h]⟩

/-- Witness for C9 at a one-article pool and a failing model call. -/
theorem C9_indices_safe_witness :
    0 < ([(⟨"t","l","s","p","c"⟩ : Article)] : List Article).length ∧
    (([(⟨"t","l","s","p","c"⟩ : Article)] : List Article).get? 0).isSome = true :=
  C9_indices_safe [⟨"t","l","s","p","c"⟩] JsonResp.fail 0 (by decide)

/-- C2 (amended): the display step emits exactly K pairs — one
placeholder-commentary pair per selected article, positionally
aligned — when the generation step returned 0 records or a malformed
(non-list) value; but when it returned a non-empty record list it emits
exactly as many pairs as there are records, so fewer-than-K valid
records drop the remaining articles (see the counterexample). -/
theorem C2_reconciler (selected : List Article) :
    (reconcile selected SumResp.fail).length = selected.length ∧
    (∀ i : Nat, (reconcile selected SumResp.fail)[i]? =
      (selected[i]?).map (fun a =>
        { title := a.title, summary := "AI 生成失敗", views := []
          action := "請閱讀原文", link := a.link, source := a.source })) ∧
    (reconcile selected SumResp.notList).length = selected.length ∧
    (∀ records, records ≠ [] →
      (reconcile selected (SumResp.list records)).length = records.length) := by
  refine ⟨?_, reconcile_placeholder_getElem? selected, ?_, ?_⟩
  · rw [reconcile, displayPairs_length, summariesOrPlaceholders_fail]
    simp
  · rw [reconcile, displayPairs_length, summariesOrPlaceholders_notList]
    simp
  · intro records hne
    rw [reconcile, displayPairs_length]
    simp [summariesOrPlaceholders, batch_summarize_articles, hne]

/-- Witness for C2 at a one-article selection: a failed generation run
yields one placeholder pair, and a one-record response yields one pair. -/
theorem C2_reconciler_witness :
    (reconcile [⟨"t1","l1","s1","p1","c1"⟩] SumResp.fail).length = 1 ∧
    (reconcile [⟨"t1","l1","s1","p1","c1"⟩]
      (SumResp.list [⟨none, none, none, none⟩])).length = 1 :=
  ⟨(C2_reconciler [⟨"t1","l1","s1","p1","c1"⟩]).1,
   (C2_reconciler [⟨"t1","l1","s1","p1","c1"⟩]).2.2.2
     [⟨none, none, none, none⟩] (by decide)⟩

/-- Counterexample to C2 as stated: for a 6-article selection set and a
generation response parsing to a non-empty 3-record list, the display
loop iterates the 3 records only — 3 pairs are emitted, not 6, and the
last 3 selected articles are dropped without placeholder commentary. -/
theorem C2_counterexample :
    (reconcile
      [⟨"t1","l1","s1","p1","c1"⟩, ⟨"t2","l2","s2","p2","c2"⟩,
       ⟨"t3","l3","s3","p3","c3"⟩, ⟨"t4","l4","s4","p4","c4"⟩,
       ⟨"t5","l5","s5","p5","c5"⟩, ⟨"t6","l6","s6","p6","c6"⟩]
      (SumResp.list [⟨some "a", some "b", some [], some "c"⟩,
        ⟨none, none, none, none⟩, ⟨some "d", none, none, none⟩])).length = 3 ∧
    ¬ (3 = 6) := by
  exact ⟨by decide, by decide⟩

/-- C4 (amended): a source failure that surfaces as an empty document
flagged malformed (`bozo` with no entries) is isolated — the run
behaves exactly as if that source were absent — but a source failure
that *raises* aborts the whole fetch loop: `fetch_news` then returns
the static mock list, discarding every succeeding source's articles
(see the counterexample); the run still completes without a run-fatal
error. -/
theorem C4_isolation (pre post : List FeedResult)
    (st : List String × List Article) :
    fetchLoop (pre ++ FeedResult.ok ⟨[], true⟩ :: post) st =
      fetchLoop (pre ++ post) st ∧
    fetch_news (pre ++ FeedResult.ok ⟨[], true⟩ :: post) =
      fetch_news (pre ++ post) ∧
    fetchLoop (pre ++ FeedResult.exn :: post) st = none ∧
    fetch_news (pre ++ FeedResult.exn :: post) = mock_articles := by
  refine ⟨fetchLoop_skip pre post st, ?_, fetchLoop_exn pre post st, ?_⟩
  · simp [fetch_news, fetchLoop_skip]
  · simp [fetch_news, fetchLoop_exn]

/-- Counterexample to C4 as stated: the first source succeeds with one
article, the second raises — the collected article is discarded and the
mock list returned instead of "the articles of all succeeding sources".
-/
theorem C4_counterexample :
    fetch_news [FeedResult.ok ⟨[⟨"t1","l1","s1","p1","c1"⟩], false⟩,
      FeedResult.exn] = mock_articles ∧
    (⟨"t1","l1","s1","p1","c1"⟩ : Article) ∉ mock_articles := by
  exact ⟨by rfl, by decide⟩

/-- C7 (amended): when every source yields zero articles, `fetch_news`
itself substitutes the static mock list (it raises and catches its own
"No articles fetched" exception); the caller never receives a distinct
no-data outcome — `fetch_news` never returns an empty list, so `main`'s
`if not articles` no-data branch is unreachable. -/
theorem C7_no_data (feeds : List FeedResult) :
    (∀ st, fetchLoop feeds ([], []) = some st → st.2 = [] →
      fetch_news feeds = mock_articles) ∧
    fetch_news feeds ≠ [] := by
  refine ⟨?_, fetch_news_ne_nil feeds⟩
  intro st heq hnil
  simp [fetch_news, heq, hnil]

/-- Witness for C7: a single well-formed feed with zero entries. -/
theorem C7_no_data_witness :
    fetch_news [FeedResult.ok ⟨[], false⟩] = mock_articles ∧
    fetch_news [FeedResult.ok ⟨[], false⟩] ≠ [] :=
  ⟨(C7_no_data [FeedResult.ok ⟨[], false⟩]).1 ([], []) rfl rfl,
   (C7_no_data [FeedResult.ok ⟨[], false⟩]).2⟩

/-- Counterexample to C7 as stated: with every source empty, the
aggregator returns the non-empty static mock list itself — the caller
receives ordinary-looking articles, not a distinct "no data" outcome,
and is never given the decision to substitute fallback content. -/
theorem C7_counterexample :
    fetch_news [FeedResult.ok ⟨[], false⟩, FeedResult.ok ⟨[], false⟩] =
      mock_articles ∧
    mock_articles ≠ [] := by
  exact ⟨by rfl, by simp [mock_articles]⟩

/-- C10 (confirmed): `fetch_news` always returns a non-empty list; on
an exception anywhere in the loop, or when all feeds together yield
zero articles, it returns the fixed 6-entry mock list, whose entries
all share the link `"https://google.com"`. -/
theorem C10_mock_fallback (feeds : List FeedResult) :
    fetch_news feeds ≠ [] ∧
    (fetchLoop feeds ([], []) = none → fetch_news feeds = mock_articles) ∧
    (∀ st, fetchLoop feeds ([], []) = some st → st.2 = [] →
      fetch_news feeds = mock_articles) ∧
    mock_articles.length = 6 ∧
    (∀ a ∈ mock_articles, a.link = "https://google.com") := by
  refine ⟨fetch_news_ne_nil feeds, ?_, ?_, by decide, by decide⟩
  · intro h
    simp [fetch_news, h]
  · intro st heq hnil
    simp [fetch_news, heq, hnil]

/-- Witness for C10: a raising feed source. -/
theorem C10_mock_fallback_witness :
    fetch_news [FeedResult.exn] = mock_articles ∧
    fetch_news [FeedResult.exn] ≠ [] :=
  ⟨(C10_mock_fallback [FeedResult.exn]).2.1 rfl,
   (C10_mock_fallback [FeedResult.exn]).1⟩

/-- C3 (amended): `get_active_model_name` is a total function of the
provider-query outcome; it ranks by: (1) the first generation-capable
identifier containing "flash" (case-insensitive, with *no* preference
for stable over experimental/versioned variants — see the
counterexample); (2) the first containing "pro"; (3) the first
available; (4) the hardcoded `"models/gemini-pro"`, which is also
returned on a query error or an empty list, so the resolver never
raises and never returns an empty value in those cases. -/
theorem C3_model_resolver (query : Except Unit (List ModelInfo)) :
    (query = Except.error () → get_active_model_name query = "models/gemini-pro") ∧
    ∀ models, query = Except.ok models →
      (availableModelNames models = [] →
        get_active_model_name query = "models/gemini-pro") ∧
      ((∃ m ∈ availableModelNames models, hasFlashTier m = true) →
        get_active_model_name query ∈ availableModelNames models ∧
        hasFlashTier (get_active_model_name query) = true) ∧
      ((∀ m ∈ availableModelNames models, hasFlashTier m = false) →
        (∃ m ∈ availableModelNames models, hasProTier m = true) →
        get_active_model_name query ∈ availableModelNames models ∧
        hasProTier (get_active_model_name query) = true) ∧
      ((∀ m ∈ availableModelNames models,
          hasFlashTier m = false ∧ hasProTier m = false) →
        ∀ m rest, availableModelNames models = m :: rest →
          get_active_model_name query = m) := by
  constructor
  · rintro rfl
    rfl
  · rintro models rfl
    refine ⟨?_, ?_, ?_, ?_⟩
    · intro h
      simp [get_active_model_name, h]
    · rintro ⟨m, hm, hpm⟩
      cases hfind : (availableModelNames models).find? (fun m => strContainsSub (strLower m) "flash") with
      | none =>
        exact absurd hpm (by simpa using List.find?_eq_none.mp hfind m hm)
      | some m' =>
        have hmem := List.mem_of_find?_eq_some hfind
        have hpred := List.find?_some hfind
        simp only [get_active_model_name, hfind]
        exact ⟨hmem, hpred⟩
    · intro hnoflash
      rintro ⟨m, hm, hpm⟩
      have hfind : (availableModelNames models).find? (fun m => strContainsSub (strLower m) "flash") = none := by
        refine List.find?_eq_none.mpr (fun x hx => ?_)
        simpa [hasFlashTier] using hnoflash x hx
      cases hfind2 : (availableModelNames models).find? (fun m => strContainsSub (strLower m) "pro") with
      | none =>
        exact absurd hpm (by simpa using List.find?_eq_none.mp hfind2 m hm)
      | some m' =>
        have hmem := List.mem_of_find?_eq_some hfind2
        have hpred := List.find?_some hfind2
        simp only [get_active_model_name, hfind, hfind2]
        exact ⟨hmem, hpred⟩
    · intro hnone m rest hcons
      have hfind : (availableModelNames models).find? (fun m => strContainsSub (strLower m) "flash") = none := by
        refine List.find?_eq_none.mpr (fun x hx => ?_)
        simpa [hasFlashTier] using (hnone x hx).1
      have hfind2 : (availableModelNames models).find? (fun m => strContainsSub (strLower m) "pro") = none := by
        refine List.find?_eq_none.mpr (fun x hx => ?_)
        simpa [hasProTier] using (hnone x hx).2
      rw [hcons] at hfind hfind2
      simp [get_active_model_name, hcons, hfind, hfind2]

/-- Witness for C3: a single stable flash model is available and chosen. -/
theorem C3_model_resolver_witness :
    get_active_model_name
      (.ok [⟨"models/gemini-1.5-flash", ["generateContent"]⟩]) ∈
      availableModelNames [⟨"models/gemini-1.5-flash", ["generateContent"]⟩] ∧
    hasFlashTier (get_active_model_name
      (.ok [⟨"models/gemini-1.5-flash", ["generateContent"]⟩])) = true :=
  ((C3_model_resolver (.ok [⟨"models/gemini-1.5-flash", ["generateContent"]⟩])).2
    [⟨"models/gemini-1.5-flash", ["generateContent"]⟩] rfl).2.1
    ⟨"models/gemini-1.5-flash", by decide, by decide⟩

/-- Counterexample to C3 as stated: when both an experimental and a
stable flash-tier identifier are discoverable, the code returns the
*first* one ("models/gemini-1.5-flash-exp") rather than excluding the
experimental variant in favour of the stable one, diverging from the
spec-modelled ranking `claimedModelResolver`. -/
theorem C3_counterexample :
    get_active_model_name
      (.ok [⟨"models/gemini-1.5-flash-exp", ["generateContent"]⟩,
            ⟨"models/gemini-1.5-flash", ["generateContent"]⟩]) =
      "models/gemini-1.5-flash-exp" ∧
    isExperimentalVariant "models/gemini-1.5-flash-exp" = true ∧
    "models/gemini-1.5-flash" ∈ availableModelNames
      [⟨"models/gemini-1.5-flash-exp", ["generateContent"]⟩,
       ⟨"models/gemini-1.5-flash", ["generateContent"]⟩] ∧
    hasFlashTier "models/gemini-1.5-flash" = true ∧
    isExperimentalVariant "models/gemini-1.5-flash" = false ∧
    claimedModelResolver
      (.ok [⟨"models/gemini-1.5-flash-exp", ["generateContent"]⟩,
            ⟨"models/gemini-1.5-flash", ["generateContent"]⟩]) =
      "models/gemini-1.5-flash" := by
  exact ⟨by decide, by decide, by decide, by decide, by decide, by decide⟩

/-- C5 (amended): there is no cache around the pipeline — every
invocation of the curation flow performs exactly one fetch-and-generate
sequence of its own, so n invocations perform n fetch sequences,
however many share a configuration/credential fingerprint. -/
theorem C5_no_cache (env : PipelineEnv) (envs : List PipelineEnv) :
    (run_curation env).fetchCalls = 1 ∧
    totalFetches envs = envs.length := by
  refine ⟨run_curation_fetchCalls env, ?_⟩
  simp [totalFetches, run_curation_fetchCalls]

/-- Counterexample to C5 as stated: two invocations with the identical
environment (same key, no time elapsed) perform 2 underlying fetch
sequences, not at most 1. -/
theorem C5_counterexample :
    (run_curation ⟨[FeedResult.exn], JsonResp.fail, SumResp.fail⟩).fetchCalls +
      (run_curation ⟨[FeedResult.exn], JsonResp.fail, SumResp.fail⟩).fetchCalls = 2 ∧
    ¬ ((run_curation ⟨[FeedResult.exn], JsonResp.fail, SumResp.fail⟩).fetchCalls +
      (run_curation ⟨[FeedResult.exn], JsonResp.fail, SumResp.fail⟩).fetchCalls ≤ 1) := by
  exact ⟨by decide, by decide⟩

/-- C6 (confirmed): `batch_summarize_articles` consumes exactly one
generation response per run; the single prompt embeds every selected
article's title; a raised call or a non-list parse yields `[]` (the
function is total — it never raises past its boundary); a parsed list
is returned as-is; and whenever the result is empty the caller
substitutes exactly one placeholder record per selected article. -/
theorem C6_summarizer (selected : List Article) (resp : SumResp)
    (svc : Nat → SumResp) :
    (batch_summarize_articles_traced svc).2 = 1 ∧
    (batch_summarize_articles_traced svc).1 =
      batch_summarize_articles (svc 0) ∧
    (∀ a ∈ selected, strContainsSub (articlesText selected) a.title = true) ∧
    (resp = SumResp.fail → batch_summarize_articles resp = []) ∧
    (resp = SumResp.notList → batch_summarize_articles resp = []) ∧
    (∀ records, resp = SumResp.list records →
      batch_summarize_articles resp = records) ∧
    (batch_summarize_articles resp = [] →
      summariesOrPlaceholders selected resp = selected.map placeholderRecord ∧
      (summariesOrPlaceholders selected resp).length = selected.length) := by
  refine ⟨rfl, rfl, articlesText_contains_title selected, ?_, ?_, ?_, ?_⟩
  · rintro rfl; rfl
  · rintro rfl; rfl
  · rintro records rfl; rfl
  · intro h
    constructor
    · simp [summariesOrPlaceholders, h]
    · simp [summariesOrPlaceholders, h]

/-- Witness for C6 at a one-article selection and a raising generation
call. -/
theorem C6_summarizer_witness :
    (batch_summarize_articles_traced (fun _ => SumResp.fail)).2 = 1 ∧
    strContainsSub (articlesText [⟨"T","l","s","p","c"⟩])
      (⟨"T","l","s","p","c"⟩ : Article).title = true ∧
    summariesOrPlaceholders [⟨"T","l","s","p","c"⟩] SumResp.fail =
      [placeholderRecord ⟨"T","l","s","p","c"⟩] :=
  have h := C6_summarizer [⟨"T","l","s","p","c"⟩] SumResp.fail
    (fun _ => SumResp.fail)
  ⟨h.1, h.2.2.1 ⟨"T","l","s","p","c"⟩ (by decide),
   (h.2.2.2.2.2.2 (h.2.2.2.1 rfl)).1⟩
